import Mathlib

set_option maxRecDepth 8192

/-!
Verification of the repr_cast attribute-macro pipeline.

The development shallowly embeds the transformation pipeline of the
repr_cast crate: the syntax extractor (lib.rs repr_cast /
extract_repr_from_attrs), the semantic modeler (parse.rs parse_repr_cast /
calculate_discriminants / try_evaluate_expr), and the code emitter
(expand.rs generate_enum_definition / generate_impl_methods /
generate_try_from_impl / generate_error_type), together with the inline
duplicate implementation living in lib.rs impl_repr_cast.

Discriminant expressions are embedded as an inductive with one
constructor per case the macro distinguishes (bare integer literal,
unary negation, anything else).  The third constructor carries the value
the host compiler would assign to the expression, which the macro itself
never sees.  Attributes are embedded as a path plus a simplified meta
shape, enough to express the repr-attribute matching the source performs
through syn.  The semantics of code the macro EMITS (the generated
from_repr / as_repr / TryFrom bodies and the host language's native
discriminant assignment for the re-declared enum) is embedded as
functions over the intermediate model.
-/

namespace ReprCast

/-- A discriminant expression, as distinguished by parse.rs
try_evaluate_expr: a bare integer literal, a unary negation, or any
other expression form (named constant, compound arithmetic, ...).  The
third constructor carries the integer value the host compiler's own
constant evaluation assigns to the expression; the macro never computes
it. -/
inductive RExpr where
  | lit (n : Nat)
  | neg (e : RExpr)
  | other (hostVal : Int)
deriving DecidableEq

/-- The value the host compiler's constant evaluation assigns to a
discriminant expression (used by the native enum-to-integer cast). -/
def RExpr.evalHost : RExpr → Int
  | .lit n => (n : Int)
  | .neg e => -(e.evalHost)
  | .other v => v

/-- Largest value of a signed 128-bit integer; lit_int.base10_parse in
try_evaluate_expr fails beyond it. -/
def I128_MAX : Int := 2 ^ 127 - 1

/-- parse.rs try_evaluate_expr: best-effort evaluation of simple literal
forms only.  A bare integer literal parses via base10_parse into i128
(failing beyond the i128 range); unary negation recurses; every other
expression form is an error, modelled as none. -/
def try_evaluate_expr : RExpr → Option Int
  | .lit n => if (n : Int) ≤ I128_MAX then some (n : Int) else none
  | .neg e => (try_evaluate_expr e).map (fun v => -v)
  | .other _ => none

/-- Argument tokens of a Meta::List or of the attribute-macro argument
position: either tokens that syn parses as a single Ident, or any other
token shape. -/
inductive TokenArg where
  | identTok (s : String)
  | otherTok (s : String)
deriving DecidableEq

/-- syn::parse2::<Ident> over argument tokens. -/
def parse2Ident : TokenArg → Option String
  | .identTok s => some s
  | .otherTok _ => none

/-- The meta shape of an attribute, as matched by the source through
syn::Meta: a bare path, a parenthesised list with tokens, or a
name-value pair. -/
inductive RMeta where
  | pathMeta
  | listMeta (tokens : TokenArg)
  | nameValueMeta
deriving DecidableEq

/-- Whether the meta shape is a Meta::List. -/
def RMeta.isList : RMeta → Bool
  | .listMeta _ => true
  | _ => false

/-- An attribute on the enum declaration or on a variant: its path and
its meta shape. -/
structure RAttr where
  path : String
  meta : RMeta
deriving DecidableEq

/-- The fields shape of a variant (syn::Fields). -/
inductive RFields where
  | unit
  | named
  | unnamed
deriving DecidableEq

/-- One variant of the input enum declaration. -/
structure RVariant where
  name : String
  attrs : List RAttr
  discriminant : Option RExpr
  fields : RFields
deriving DecidableEq

/-- The data of a DeriveInput: an enum with its variants, a struct, or a
union. -/
inductive RData where
  | enumData (variants : List RVariant)
  | structData
  | unionData
deriving DecidableEq

/-- Whether the DeriveInput data is an enum. -/
def RData.isEnum : RData → Bool
  | .enumData _ => true
  | _ => false

/-- syn::DeriveInput, restricted to the parts the macro reads: name,
visibility (an uninterpreted pass-through token string), attributes and
data. -/
structure DeriveInput where
  ident : String
  vis : String
  attrs : List RAttr
  data : RData
deriving DecidableEq

/-- repr_enum.rs CalculatedDiscriminant: explicit expression kept
verbatim, or a concretely computed implicit integer. -/
inductive CalculatedDiscriminant where
  | Explicit (e : RExpr)
  | Implicit (v : Int)
deriving DecidableEq

/-- repr_enum.rs EnumVariant: name, attributes, the raw source
discriminant when present, and the calculated discriminant. -/
structure EnumVariantSpec where
  name : String
  attributes : List RAttr
  discriminant : Option RExpr
  calculated_discriminant : CalculatedDiscriminant
deriving DecidableEq

/-- repr_enum.rs ReprEnum: the validated intermediate model handed from
the modeler to the emitter. -/
structure ReprEnum where
  name : String
  repr_type : String
  visibility : String
  attributes : List RAttr
  variants : List EnumVariantSpec
deriving DecidableEq

/-- parse.rs is_matching_repr_attr: path is `repr`, meta is a list whose
tokens parse as a single Ident equal to the chosen repr type. -/
def is_matching_repr_attr (a : RAttr) (repr_type : String) : Bool :=
  (a.path == "repr") &&
    (match a.meta with
     | .listMeta tok =>
       match parse2Ident tok with
       | some s => s == repr_type
       | none => false
     | _ => false)

/-- parse.rs calculate_discriminants, recursion with the running
next_implicit_value counter (i128 in the source, embedded as Int; the
rule is exactly the source's: explicit evaluable sets counter to
value + 1, explicit unevaluable resets it to 0, implicit consumes the
counter and increments it). -/
def calcDiscRec : List RVariant → Int → List EnumVariantSpec
  | [], _ => []
  | v :: rest, next =>
    match v.discriminant with
    | some e =>
      { name := v.name
      , attributes := v.attrs
      , discriminant := some e
      , calculated_discriminant := .Explicit e }
        :: calcDiscRec rest
             (match try_evaluate_expr e with
              | some value => value + 1
              | none => 0)
    | none =>
      { name := v.name
      , attributes := v.attrs
      , discriminant := none
      , calculated_discriminant := .Implicit next }
        :: calcDiscRec rest (next + 1)

/-- parse.rs calculate_discriminants: the counter starts at 0. -/
def calculate_discriminants (variants : List RVariant) : List EnumVariantSpec :=
  calcDiscRec variants 0

/-- The two modeler failure kinds of parse.rs parse_repr_cast. -/
inductive ParseError where
  | NotAnEnum
  | HasFields (variantName : String)
deriving DecidableEq

/-- Whether a variant carries positional or named fields (the negation
of matches!(variant.fields, Fields::Unit)). -/
def has_nonunit_fields (v : RVariant) : Bool :=
  !(v.fields == RFields.unit)

/-- parse.rs parse_repr_cast: validate that the input is an enum, that
every variant is field-less (erroring at the first offender), calculate
discriminants, and filter out attributes matching the chosen repr type. -/
def parse_repr_cast (args : String) (input : DeriveInput) : Except ParseError ReprEnum :=
  match input.data with
  | .structData => .error .NotAnEnum
  | .unionData => .error .NotAnEnum
  | .enumData vs =>
    match vs.find? has_nonunit_fields with
    | some v => .error (.HasFields v.name)
    | none =>
      .ok { name := input.ident
          , repr_type := args
          , visibility := input.vis
          , attributes := input.attrs.filter (fun a => !is_matching_repr_attr a args)
          , variants := calculate_discriminants vs }

/-- The extractor failure kinds (lib.rs repr_cast): no argument and no
existing repr attribute, or tokens that do not parse as a single type
identifier. -/
inductive ReprCastError where
  | MissingRepresentationType
  | MalformedArgument
deriving DecidableEq

/-- parse.rs / lib.rs extract_repr_from_attrs: scan the attributes in
declaration order; at the first attribute whose path is `repr` with a
Meta::List, parse its tokens as an Ident (a parse failure is surfaced as
a hard error); attributes whose path is `repr` but whose meta is not a
list are skipped; if no attribute matches, report that none was found. -/
def extract_repr_from_attrs : List RAttr → Except ReprCastError (Option String)
  | [] => .ok none
  | a :: rest =>
    if a.path == "repr" then
      match a.meta with
      | .listMeta tok =>
        match parse2Ident tok with
        | some ty => .ok (some ty)
        | none => .error .MalformedArgument
      | _ => extract_repr_from_attrs rest
    else
      extract_repr_from_attrs rest

/-- lib.rs repr_cast, argument resolution: non-empty argument tokens are
parsed as a single Ident; empty argument tokens fall back to the first
existing repr attribute; with neither, the advisory
MissingRepresentationType diagnostic aborts the pipeline. -/
def resolve_repr_type (args : Option TokenArg) (input : DeriveInput) :
    Except ReprCastError String :=
  match args with
  | some tok =>
    match parse2Ident tok with
    | some ty => .ok ty
    | none => .error .MalformedArgument
  | none =>
    match extract_repr_from_attrs input.attrs with
    | .ok (some ty) => .ok ty
    | .ok none => .error .MissingRepresentationType
    | .error e => .error e

/-- A variant of the re-declared enum as the emitter writes it:
attributes verbatim, and the source discriminant expression verbatim
when present (implicit variants are emitted with no discriminant). -/
structure EmittedVariant where
  name : String
  attrs : List RAttr
  disc : Option RExpr
deriving DecidableEq

/-- The re-declared enum as the emitter writes it: pass-through
attributes followed by the repr attribute, then visibility, name and the
variant list in original order. -/
structure EmittedEnum where
  attrs : List RAttr
  visibility : String
  name : String
  variants : List EmittedVariant
deriving DecidableEq

/-- The `#[repr(T)]` attribute the emitter attaches. -/
def reprAttr (repr_type : String) : RAttr :=
  { path := "repr", meta := .listMeta (.identTok repr_type) }

/-- expand.rs generate_enum_definition: pass-through attributes, then
`#[repr(T)]`, visibility, name, and each variant with its attributes and
its source discriminant expression verbatim (or none). -/
def generate_enum_definition (re : ReprEnum) : EmittedEnum :=
  { attrs := re.attributes ++ [reprAttr re.repr_type]
  , visibility := re.visibility
  , name := re.name
  , variants := re.variants.map (fun v =>
      { name := v.name, attrs := v.attributes, disc := v.discriminant }) }

/-- The host language's native discriminant assignment over the emitted
variant list (the collaborator semantics the emitted code defers to, as
described in the spec: an explicit expression evaluates to its own
value, an implicit variant gets previous + 1, starting from 0). -/
def hostDiscsRec : List (Option RExpr) → Int → List Int
  | [], _ => []
  | some e :: rest, _ => e.evalHost :: hostDiscsRec rest (e.evalHost + 1)
  | none :: rest, next => next :: hostDiscsRec rest (next + 1)

/-- Host discriminant assignment starting from 0. -/
def hostDiscs (ds : List (Option RExpr)) : List Int :=
  hostDiscsRec ds 0

/-- The host discriminants of the enum as re-declared by the emitter;
`Variant as T` casts variant number i to the i-th entry of this list. -/
def enumHostDiscs (re : ReprEnum) : List Int :=
  hostDiscs ((generate_enum_definition re).variants.map (fun v => v.disc))

/-- The first-match scan shared by the generated from_repr bodies: walk
the per-variant values in declaration order and return the index of the
first one equal to the input, or none. -/
def fromReprChain : List Int → Int → Option Nat
  | [], _ => none
  | d :: rest, value =>
    if value = d then some 0
    else (fromReprChain rest value).map (fun i => i + 1)

/-- expand.rs generate_impl_methods, from_repr: an if-chain testing, for
each variant in declaration order, `value == Name::Variant as T` (the
host's native cast), returning the first match and None otherwise.
Variants are identified by their declaration index. -/
def gen_from_repr (re : ReprEnum) (value : Int) : Option Nat :=
  fromReprChain (enumHostDiscs re) value

/-- expand.rs generate_impl_methods, as_repr: each variant maps to
`Name::Variant as T`, the host's native cast of that variant. -/
def gen_as_repr (re : ReprEnum) (i : Nat) : Int :=
  (enumHostDiscs re).getD i 0

/-- The `<Name>ConversionError` tuple struct generated by
generate_error_type, holding the rejected integer as public data. -/
structure ConversionError where
  value : Int
deriving DecidableEq

/-- expand.rs generate_try_from_impl:
`Self::from_repr(value).ok_or(<Name>ConversionError(value))`. -/
def gen_try_from (re : ReprEnum) (value : Int) : Except ConversionError Nat :=
  match gen_from_repr re value with
  | some i => .ok i
  | none => .error { value := value }

/-- expand.rs generate_error_type / generate_try_from_impl:
format_ident!("{}ConversionError", name). -/
def errorTypeName (enumName : String) : String :=
  enumName ++ "ConversionError"

/-- expand.rs generate_error_type, the derive list on the error type. -/
def errorTypeDerives : List String :=
  ["Debug", "Clone", "Copy", "PartialEq", "Eq", "Hash"]

/-- expand.rs generate_error_type, the Display body:
write!(f, "unknown {} variant: {}", stringify!(#name), self.0). -/
def conversionErrorMessage (enumName : String) (value : Int) : String :=
  "unknown " ++ enumName ++ " variant: " ++ toString value

/-- The full pipeline stage composition relevant to shape validation:
modeler then emitter; a modeler failure aborts with the diagnostic and
nothing is emitted. -/
def pipeline (args : String) (input : DeriveInput) : Except ParseError EmittedEnum :=
  (parse_repr_cast args input).map generate_enum_definition

/-- The token each match arm of the lib.rs-generated from_repr uses: an
explicit discriminant expression emitted verbatim, or the literal of the
inline implementation's computed implicit value. -/
inductive DiscToken where
  | exprTok (e : RExpr)
  | litTok (v : Int)
deriving DecidableEq

/-- lib.rs impl_repr_cast discriminant-token computation: explicit
discriminants are recorded verbatim and the counter is reset to 0 after
EVERY explicit discriminant (the source comments that the counter will
not be used, which is wrong for a following implicit variant); implicit
discriminants record the counter as a literal and increment it. -/
def libDiscTokensRec : List (Option RExpr) → Int → List DiscToken
  | [], _ => []
  | some e :: rest, _ => .exprTok e :: libDiscTokensRec rest 0
  | none :: rest, next => .litTok next :: libDiscTokensRec rest (next + 1)

/-- lib.rs discriminant tokens starting from counter 0. -/
def libDiscTokens (ds : List (Option RExpr)) : List DiscToken :=
  libDiscTokensRec ds 0

/-- The value a lib.rs match-arm pattern stands for under the host
compiler (literal patterns and const-path patterns match by value;
compound expressions are not legal patterns at all and make the
generated code fail to compile, which the embedding does not need to
distinguish for the inputs considered here). -/
def DiscToken.evalHost : DiscToken → Int
  | .exprTok e => e.evalHost
  | .litTok v => v

/-- lib.rs impl_repr_cast, from_repr: a match whose arms test the
recorded discriminant tokens in declaration order, with a final
catch-all returning None; the first arm whose pattern value equals the
input wins. -/
def lib_from_repr (toks : List DiscToken) (value : Int) : Option Nat :=
  fromReprChain (toks.map DiscToken.evalHost) value

/-! Concrete inputs mirroring the crate's own tests and the spec's
scenarios, used by the witnesses below. -/

/-- The Status scenario: `enum Status { Pending = 0, Active = 1,
Completed = 2 }`. -/
def statusVariants : List RVariant :=
  [ { name := "Pending", attrs := [], discriminant := some (.lit 0), fields := .unit }
  , { name := "Active", attrs := [], discriminant := some (.lit 1), fields := .unit }
  , { name := "Completed", attrs := [], discriminant := some (.lit 2), fields := .unit } ]

/-- The Status declaration with representation type u8. -/
def statusInput : DeriveInput :=
  { ident := "Status", vis := "pub", attrs := [], data := .enumData statusVariants }

/-- The intermediate model of Status as the modeler produces it. -/
def statusRe : ReprEnum :=
  { name := "Status", repr_type := "u8", visibility := "pub", attributes := []
  , variants := calculate_discriminants statusVariants }

/-- The Priority scenario: `enum Priority { Low = -1, Normal = 0,
High = 1, Critical = 100 }` with representation i32. -/
def priorityVariants : List RVariant :=
  [ { name := "Low", attrs := [], discriminant := some (.neg (.lit 1)), fields := .unit }
  , { name := "Normal", attrs := [], discriminant := some (.lit 0), fields := .unit }
  , { name := "High", attrs := [], discriminant := some (.lit 1), fields := .unit }
  , { name := "Critical", attrs := [], discriminant := some (.lit 100), fields := .unit } ]

/-- The intermediate model of Priority. -/
def priorityRe : ReprEnum :=
  { name := "Priority", repr_type := "i32", visibility := "", attributes := []
  , variants := calculate_discriminants priorityVariants }

/-- The Mixed scenario: `enum Mixed { First, Second = 10, Third }`. -/
def mixedVariants : List RVariant :=
  [ { name := "First", attrs := [], discriminant := none, fields := .unit }
  , { name := "Second", attrs := [], discriminant := some (.lit 10), fields := .unit }
  , { name := "Third", attrs := [], discriminant := none, fields := .unit } ]

/-- The source discriminant expressions of Mixed in declaration order. -/
def mixedDiscs : List (Option RExpr) :=
  mixedVariants.map (fun v => v.discriminant)

/-- The reset scenario of tests/complex_discriminants.rs WithConsts:
`enum WithConsts { First, Second = BASE, Third, Fourth = BASE + OFFSET,
Fifth }` where BASE = 10 and BASE + OFFSET = 15 under the host compiler
but neither expression is evaluable by the macro. -/
def withConstsVariants : List RVariant :=
  [ { name := "First", attrs := [], discriminant := none, fields := .unit }
  , { name := "Second", attrs := [], discriminant := some (.other 10), fields := .unit }
  , { name := "Third", attrs := [], discriminant := none, fields := .unit }
  , { name := "Fourth", attrs := [], discriminant := some (.other 15), fields := .unit }
  , { name := "Fifth", attrs := [], discriminant := none, fields := .unit } ]

/-- The intermediate model of WithConsts with representation u8. -/
def withConstsRe : ReprEnum :=
  { name := "WithConsts", repr_type := "u8", visibility := "", attributes := []
  , variants := calculate_discriminants withConstsVariants }

/-- The reset scenario of the spec:
`enum M { First, Second = NAMED_CONST, Third }`, with 42 as the host
value of the named constant. -/
def namedConstVariants : List RVariant :=
  [ { name := "First", attrs := [], discriminant := none, fields := .unit }
  , { name := "Second", attrs := [], discriminant := some (.other 42), fields := .unit }
  , { name := "Third", attrs := [], discriminant := none, fields := .unit } ]

/-! Helper lemmas about the shared first-match scan and the host
discriminant assignment. -/

/-- The host discriminant list has one entry per variant. -/
theorem hostDiscsRec_length (ds : List (Option RExpr)) (n : Int) :
    (hostDiscsRec ds n).length = ds.length := by
  induction ds generalizing n with
  | nil => rfl
  | cons d rest ih => cases d <;> simp [hostDiscsRec, ih]

/-- enumHostDiscs has one entry per variant of the model. -/
theorem enumHostDiscs_length (re : ReprEnum) :
    (enumHostDiscs re).length = re.variants.length := by
  simp [enumHostDiscs, hostDiscs, generate_enum_definition, hostDiscsRec_length]

/-- The first-match scan returns index i exactly when the i-th entry
equals the value and no earlier entry does. -/
theorem fromReprChain_some_iff (l : List Int) (value : Int) (i : Nat) :
    fromReprChain l value = some i ↔
      i < l.length ∧ l.getD i 0 = value ∧ ∀ j, j < i → l.getD j 0 ≠ value := by
  induction l generalizing i with
  | nil => simp [fromReprChain]
  | cons d rest ih =>
    by_cases hv : value = d
    · cases i with
      | zero => simp [fromReprChain, hv]
      | succ i =>
        simp only [fromReprChain, if_pos hv]
        constructor
        · intro h
          exact absurd h (by simp)
        · rintro ⟨-, -, hall⟩
          exact absurd (by simpa using hall 0 (Nat.succ_pos i)) (by simp [hv])
    · cases i with
      | zero =>
        simp only [fromReprChain, if_neg hv]
        constructor
        · intro h
          rcases Option.map_eq_some'.mp h with ⟨a, -, ha⟩
          exact absurd ha (by simp)
        · rintro ⟨-, h0, -⟩
          exact absurd (show d = value by simpa using h0) (fun he => hv he.symm)
      | succ i =>
        simp only [fromReprChain, if_neg hv]
        constructor
        · intro h
          rcases Option.map_eq_some'.mp h with ⟨a, ha, hsucc⟩
          have haa : a = i := by omega
          rw [haa] at ha
          rcases (ih i).mp ha with ⟨h1, h2, h3⟩
          refine ⟨by simpa using Nat.succ_lt_succ h1, by simpa using h2, ?_⟩
          intro j hj
          cases j with
          | zero => simpa using fun he => hv he.symm
          | succ j => simpa using h3 j (Nat.lt_of_succ_lt_succ hj)
        · rintro ⟨h1, h2, h3⟩
          have hrest : fromReprChain rest value = some i := by
            refine (ih i).mpr ⟨by simpa using Nat.lt_of_succ_lt_succ h1, by simpa using h2, ?_⟩
            intro j hj
            simpa using h3 (j + 1) (Nat.succ_lt_succ hj)
          simp [hrest]

/-- The first-match scan returns none exactly when the value occurs
nowhere in the list. -/
theorem fromReprChain_none_iff (l : List Int) (value : Int) :
    fromReprChain l value = none ↔ value ∉ l := by
  induction l with
  | nil => simp [fromReprChain]
  | cons d rest ih =>
    by_cases hv : value = d <;> simp [fromReprChain, hv, ih]

/-- In a duplicate-free list, positions holding equal entries are
equal. -/
theorem nodup_getD_inj (l : List Int) (h : l.Nodup) (i j : Nat)
    (hi : i < l.length) (hj : j < l.length)
    (he : l.getD i 0 = l.getD j 0) : i = j := by
  rw [List.getD_eq_getElem l 0 hi, List.getD_eq_getElem l 0 hj] at he
  exact (h.getElem_inj_iff).mp he

/-- C1: Round trip.  For every valid fieldless enum (validity being the
host compiler's requirement that the host-assigned discriminants of the
re-declared enum are pairwise distinct) and every variant index i, the
emitted from_repr applied to as_repr of that variant returns Some of the
same variant, whatever mix of explicit, implicit and
unevaluable-expression discriminants the enum uses. -/
theorem from_repr_as_repr_round_trip (re : ReprEnum)
    (h : (enumHostDiscs re).Nodup) (i : Nat) (hi : i < re.variants.length) :
    gen_from_repr re (gen_as_repr re i) = some i := by
  have hlen := enumHostDiscs_length re
  refine (fromReprChain_some_iff _ _ _).mpr ⟨by omega, rfl, ?_⟩
  intro j hj heq
  have := nodup_getD_inj _ h j i (by omega) (by omega) heq
  omega

/-- Witness for C1, at the WithConsts scenario of the crate's own tests:
the variant Third, whose host value 11 follows an unevaluable constant
expression, round-trips. -/
theorem from_repr_as_repr_round_trip_witness :
    (enumHostDiscs withConstsRe).Nodup ∧ 2 < withConstsRe.variants.length ∧
      gen_from_repr withConstsRe (gen_as_repr withConstsRe 2) = some 2 :=
  ⟨by decide, by decide,
    from_repr_as_repr_round_trip withConstsRe (by decide) 2 (by decide)⟩

/-- C2: the emitted from_repr tests each variant in declaration order
against the host's native enum-to-integer cast and returns the first
match (first conjunct), returns no value exactly when no variant's host
discriminant equals the input (second conjunct), and never admits two
distinct matching variants, because host discriminants are pairwise
distinct (third conjunct). -/
theorem from_repr_first_match_total (re : ReprEnum)
    (h : (enumHostDiscs re).Nodup) (value : Int) :
    (∀ i, gen_from_repr re value = some i ↔
        i < (enumHostDiscs re).length ∧ (enumHostDiscs re).getD i 0 = value ∧
          ∀ j, j < i → (enumHostDiscs re).getD j 0 ≠ value)
    ∧ (gen_from_repr re value = none ↔ value ∉ enumHostDiscs re)
    ∧ (∀ i j, i < (enumHostDiscs re).length → j < (enumHostDiscs re).length →
        (enumHostDiscs re).getD i 0 = value → (enumHostDiscs re).getD j 0 = value →
        i = j) := by
  refine ⟨fun i => fromReprChain_some_iff _ _ _, fromReprChain_none_iff _ _, ?_⟩
  intro i j hi hj hiv hjv
  exact nodup_getD_inj _ h i j hi hj (hiv.trans hjv.symm)

/-- Witness for C2 at the Status scenario: from_repr 1 = Some Active. -/
theorem from_repr_first_match_total_witness :
    (enumHostDiscs statusRe).Nodup ∧ gen_from_repr statusRe 1 = some 1 :=
  ⟨by decide,
    ((from_repr_first_match_total statusRe (by decide) 1).1 1).mpr (by decide)⟩

/-- C3: discriminant inference.  A variant without a discriminant
expression resolves to Implicit of the running counter, which then
increments by 1; a variant with an evaluable expression (bare literal or
unary negation of one) is recorded as Explicit and sets the counter to
the evaluated value plus 1; and concretely for
`enum Mixed { First, Second = 10, Third }` the calculated values are
Implicit 0, Explicit 10, Implicit 11. -/
theorem discriminant_inference :
    (∀ (v : RVariant) (rest : List RVariant) (next : Int),
        v.discriminant = none →
        calcDiscRec (v :: rest) next =
          { name := v.name, attributes := v.attrs, discriminant := none,
            calculated_discriminant := .Implicit next } :: calcDiscRec rest (next + 1))
    ∧ (∀ (v : RVariant) (e : RExpr) (value : Int) (rest : List RVariant) (next : Int),
        v.discriminant = some e → try_evaluate_expr e = some value →
        calcDiscRec (v :: rest) next =
          { name := v.name, attributes := v.attrs, discriminant := some e,
            calculated_discriminant := .Explicit e } :: calcDiscRec rest (value + 1))
    ∧ (calculate_discriminants mixedVariants).map (fun v => v.calculated_discriminant) =
        [.Implicit 0, .Explicit (.lit 10), .Implicit 11] := by
  refine ⟨?_, ?_, by decide⟩
  · intro v rest next hd
    simp [calcDiscRec, hd]
  · intro v e value rest next hd he
    simp [calcDiscRec, hd, he]

/-- Witness for C3: an implicit variant consumes the counter, and an
evaluable explicit literal 10 is recorded as Explicit. -/
theorem discriminant_inference_witness :
    calcDiscRec
        [{ name := "Third", attrs := [], discriminant := none, fields := .unit }] 11 =
      [{ name := "Third", attributes := [], discriminant := none,
         calculated_discriminant := .Implicit 11 }] ∧
    calcDiscRec
        [{ name := "Second", attrs := [], discriminant := some (.lit 10),
           fields := .unit }] 1 =
      [{ name := "Second", attributes := [], discriminant := some (.lit 10),
         calculated_discriminant := .Explicit (.lit 10) }] :=
  ⟨discriminant_inference.1 _ [] 11 rfl,
    discriminant_inference.2.1 _ (.lit 10) 10 [] 1 rfl (by decide)⟩

/-- C4: reset on unevaluable expression.  A variant whose discriminant
expression is neither a bare integer literal nor a unary negation of one
resets the implicit counter to 0 (first conjunct); such expressions are
exactly the ones try_evaluate_expr rejects (second conjunct); and
concretely for `enum M { First, Second = NAMED_CONST, Third }` the
variant Third resolves to implicit value 0, not 2 (third conjunct). -/
theorem reset_on_unevaluable_expression :
    (∀ (v : RVariant) (e : RExpr) (rest : List RVariant) (next : Int),
        v.discriminant = some e → try_evaluate_expr e = none →
        calcDiscRec (v :: rest) next =
          { name := v.name, attributes := v.attrs, discriminant := some e,
            calculated_discriminant := .Explicit e } :: calcDiscRec rest 0)
    ∧ (∀ hostVal : Int, try_evaluate_expr (.other hostVal) = none)
    ∧ (calculate_discriminants namedConstVariants).map (fun v => v.calculated_discriminant) =
        [.Implicit 0, .Explicit (.other 42), .Implicit 0] := by
  refine ⟨?_, fun _ => rfl, by decide⟩
  intro v e rest next hd he
  simp [calcDiscRec, hd, he]

/-- Witness for C4: a named-constant discriminant resets the counter. -/
theorem reset_on_unevaluable_expression_witness :
    calcDiscRec
        [{ name := "Second", attrs := [], discriminant := some (.other 42),
           fields := .unit }] 1 =
      [{ name := "Second", attributes := [], discriminant := some (.other 42),
         calculated_discriminant := .Explicit (.other 42) }] :=
  reset_on_unevaluable_expression.1 _ (.other 42) [] 1 rfl rfl

/-- C5: rejection.  For every integer x equal to no variant's host
discriminant, the emitted from_repr returns no value, and the emitted
TryFrom fails with the conversion error carrying exactly x. -/
theorem rejection_of_unmatched_values (re : ReprEnum) (x : Int)
    (h : x ∉ enumHostDiscs re) :
    gen_from_repr re x = none ∧ gen_try_from re x = .error { value := x } := by
  have hn : gen_from_repr re x = none := (fromReprChain_none_iff _ _).mpr h
  exact ⟨hn, by simp [gen_try_from, hn]⟩

/-- Witness for C5, at the Priority scenario: fromRepresentation 2 fails
and TryFrom errors with the conversion error carrying 2. -/
theorem rejection_of_unmatched_values_witness :
    (2 : Int) ∉ enumHostDiscs priorityRe ∧
      (gen_from_repr priorityRe 2 = none ∧
        gen_try_from priorityRe 2 = .error { value := 2 }) :=
  ⟨by decide, rejection_of_unmatched_values priorityRe 2 (by decide)⟩

/-! Helper lemmas for the modeler's filtering and the extractor. -/

/-- Inverting a successful parse: the input was an enum, every variant
was field-less, and the model is exactly the record the modeler builds. -/
theorem parse_ok_inv (args : String) (input : DeriveInput) (re : ReprEnum)
    (h : parse_repr_cast args input = .ok re) :
    ∃ vs, input.data = .enumData vs ∧ vs.find? has_nonunit_fields = none ∧
      re = { name := input.ident, repr_type := args, visibility := input.vis,
             attributes := input.attrs.filter (fun a => !is_matching_repr_attr a args),
             variants := calculate_discriminants vs } := by
  obtain ⟨id, vis, attrs, data⟩ := input
  cases data with
  | structData => exact absurd h (by simp [parse_repr_cast])
  | unionData => exact absurd h (by simp [parse_repr_cast])
  | enumData vs =>
    cases hf : vs.find? has_nonunit_fields with
    | some v =>
      exact absurd h (by simp [parse_repr_cast, hf])
    | none =>
      refine ⟨vs, rfl, hf, ?_⟩
      simp only [parse_repr_cast, hf] at h
      injection h with h
      exact h.symm

/-- An attribute matching the chosen repr type has path `repr`. -/
theorem path_eq_of_matching (a : RAttr) (t : String)
    (h : is_matching_repr_attr a t = true) : a.path = "repr" := by
  simp only [is_matching_repr_attr, Bool.and_eq_true, beq_iff_eq] at h
  exact h.1

/-- The attribute the emitter attaches matches the chosen repr type. -/
theorem reprAttr_matching (t : String) :
    is_matching_repr_attr (reprAttr t) t = true := by
  simp [is_matching_repr_attr, reprAttr, parse2Ident]

/-- Filtering out matching repr attributes leaves every attribute whose
path is not `repr` untouched and in order. -/
theorem filter_nonrepr_filter_matching (l : List RAttr) (t : String) :
    (l.filter (fun a => !is_matching_repr_attr a t)).filter
        (fun a => a.path ≠ "repr") =
      l.filter (fun a => a.path ≠ "repr") := by
  rw [List.filter_filter]
  refine List.filter_congr ?_
  intro a _
  by_cases hp : a.path = "repr"
  · cases hm : is_matching_repr_attr a t <;> simp [hp, hm]
  · have hm : is_matching_repr_attr a t = false := by
      cases hq : is_matching_repr_attr a t with
      | false => rfl
      | true => exact absurd (path_eq_of_matching a t hq) hp
    simp [hp, hm]

/-- The emitted attribute list holds exactly one attribute matching the
chosen repr type: the one the emitter attaches. -/
theorem count_matching_emitted (l : List RAttr) (t : String) :
    ((l.filter (fun a => !is_matching_repr_attr a t)) ++ [reprAttr t]).countP
        (fun a => is_matching_repr_attr a t) = 1 := by
  rw [List.countP_append]
  have h0 : (l.filter (fun a => !is_matching_repr_attr a t)).countP
      (fun a => is_matching_repr_attr a t) = 0 := by
    rw [List.countP_eq_zero]
    intro a ha
    have hmem := List.of_mem_filter ha
    simp only [Bool.not_eq_true'] at hmem
    simp [hmem]
  simp [h0, List.countP_cons, reprAttr_matching]

/-- C7: attribute and visibility fidelity.  For any input the modeler
accepts, the re-declared enum keeps the input's visibility; its
attribute list is the input's attributes with matching repr annotations
filtered out, followed by the emitter's own repr attribute; every
annotation whose path is not `repr` survives verbatim and in original
order; and exactly one attribute matching the chosen representation
type is emitted — never two. -/
theorem attribute_visibility_fidelity (args : String) (input : DeriveInput)
    (re : ReprEnum) (h : parse_repr_cast args input = .ok re) :
    (generate_enum_definition re).visibility = input.vis
    ∧ (generate_enum_definition re).attrs =
        input.attrs.filter (fun a => !is_matching_repr_attr a args) ++ [reprAttr args]
    ∧ (generate_enum_definition re).attrs.filter (fun a => a.path ≠ "repr") =
        input.attrs.filter (fun a => a.path ≠ "repr")
    ∧ (generate_enum_definition re).attrs.countP
        (fun a => is_matching_repr_attr a args) = 1 := by
  obtain ⟨vs, hd, hf, hre⟩ := parse_ok_inv args input re h
  subst hre
  refine ⟨rfl, rfl, ?_, ?_⟩
  · show ((input.attrs.filter _ ++ [reprAttr args]).filter _) = _
    rw [List.filter_append]
    simp only [List.filter_cons, List.filter_nil, reprAttr, decide_not]
    simpa using filter_nonrepr_filter_matching input.attrs args
  · exact count_matching_emitted input.attrs args

/-- The input of the crate's own attribute-filtering test: a matching
`#[repr(u8)]` plus a derive attribute. -/
def fidelityInput : DeriveInput :=
  { ident := "Test", vis := "pub"
  , attrs := [ { path := "repr", meta := .listMeta (.identTok "u8") }
             , { path := "derive", meta := .listMeta (.otherTok "Debug") } ]
  , data := .enumData [ { name := "A", attrs := [], discriminant := none
                        , fields := .unit } ] }

/-- The model the modeler produces for fidelityInput. -/
def fidelityRe : ReprEnum :=
  { name := "Test", repr_type := "u8", visibility := "pub"
  , attributes := [ { path := "derive", meta := .listMeta (.otherTok "Debug") } ]
  , variants := calculate_discriminants
      [ { name := "A", attrs := [], discriminant := none, fields := .unit } ] }

/-- Witness for C7: the matching repr attribute of fidelityInput is
filtered, the derive attribute survives, visibility is preserved, and
the emitted declaration holds exactly one matching repr attribute. -/
theorem attribute_visibility_fidelity_witness :
    parse_repr_cast "u8" fidelityInput = .ok fidelityRe ∧
      ((generate_enum_definition fidelityRe).visibility = fidelityInput.vis ∧
        (generate_enum_definition fidelityRe).attrs.countP
          (fun a => is_matching_repr_attr a "u8") = 1) :=
  ⟨rfl, (attribute_visibility_fidelity "u8" fidelityInput fidelityRe rfl).1,
    (attribute_visibility_fidelity "u8" fidelityInput fidelityRe rfl).2.2.2⟩

/-- C8: shape validation.  The modeler fails with NotAnEnum exactly when
the declaration is not an enumeration; it fails with HasFields at the
first variant carrying fields when one exists; with an enumeration whose
variants are all field-less it produces exactly the EnumSpec record; and
any modeler failure aborts the pipeline with that diagnostic, so nothing
is emitted. -/
theorem shape_validation (args : String) (input : DeriveInput) :
    (parse_repr_cast args input = .error .NotAnEnum ↔ input.data.isEnum = false)
    ∧ (∀ vs v, input.data = .enumData vs → vs.find? has_nonunit_fields = some v →
        parse_repr_cast args input = .error (.HasFields v.name))
    ∧ (∀ vs, input.data = .enumData vs → vs.find? has_nonunit_fields = none →
        parse_repr_cast args input = .ok
          { name := input.ident, repr_type := args, visibility := input.vis,
            attributes := input.attrs.filter (fun a => !is_matching_repr_attr a args),
            variants := calculate_discriminants vs })
    ∧ (∀ e, parse_repr_cast args input = .error e → pipeline args input = .error e) := by
  obtain ⟨id, vis, attrs, data⟩ := input
  refine ⟨?_, ?_, ?_, ?_⟩
  · cases data with
    | structData => simp [parse_repr_cast, RData.isEnum]
    | unionData => simp [parse_repr_cast, RData.isEnum]
    | enumData vs =>
      cases hf : vs.find? has_nonunit_fields with
      | some v => simp [parse_repr_cast, hf, RData.isEnum]
      | none => simp [parse_repr_cast, hf, RData.isEnum]
  · intro vs v hd hf
    cases hd
    simp [parse_repr_cast, hf]
  · intro vs hd hf
    cases hd
    simp [parse_repr_cast, hf]
  · intro e he
    simp [pipeline, he, Except.map]

/-- A struct declaration, rejected as NotAnEnum. -/
def structInput : DeriveInput :=
  { ident := "NotAnEnum", vis := "", attrs := [], data := .structData }

/-- The rejection scenario `enum X { A(i32), B }`. -/
def withFieldsVariants : List RVariant :=
  [ { name := "A", attrs := [], discriminant := none, fields := .unnamed }
  , { name := "B", attrs := [], discriminant := none, fields := .unit } ]

/-- The declaration of the rejection scenario. -/
def withFieldsInput : DeriveInput :=
  { ident := "X", vis := "", attrs := [], data := .enumData withFieldsVariants }

/-- Witness for C8: a struct fails with NotAnEnum, and the enum with a
tuple variant fails with HasFields at that variant. -/
theorem shape_validation_witness :
    parse_repr_cast "u8" structInput = .error .NotAnEnum ∧
      parse_repr_cast "i32" withFieldsInput = .error (.HasFields "A") :=
  ⟨(shape_validation "u8" structInput).1.mpr rfl,
    (shape_validation "i32" withFieldsInput).2.1 withFieldsVariants
      { name := "A", attrs := [], discriminant := none, fields := .unnamed } rfl rfl⟩

/-- Whether an attribute is a repr annotation with list arguments: the
shape the extractor stops at. -/
def isReprList (a : RAttr) : Bool :=
  (a.path == "repr") && a.meta.isList

/-- If no attribute has path `repr` with a Meta::List, the extractor
reports that none was found. -/
theorem extract_none_of_find_none (attrs : List RAttr)
    (h : attrs.find? isReprList = none) :
    extract_repr_from_attrs attrs = .ok none := by
  induction attrs with
  | nil => rfl
  | cons a rest ih =>
    by_cases hp : isReprList a = true
    · rw [List.find?_cons_of_pos _ hp] at h
      exact absurd h (by simp)
    · rw [List.find?_cons_of_neg _ hp] at h
      have hstep : extract_repr_from_attrs (a :: rest) = extract_repr_from_attrs rest := by
        by_cases hpr : a.path = "repr"
        · cases hm : a.meta with
          | listMeta tok =>
            exact absurd (by simp [isReprList, hpr, hm, RMeta.isList]) hp
          | pathMeta => simp [extract_repr_from_attrs, hpr, hm]
          | nameValueMeta => simp [extract_repr_from_attrs, hpr, hm]
        · simp [extract_repr_from_attrs, hpr]
      rw [hstep]
      exact ih h

/-- The extractor acts on the FIRST attribute with path `repr` and a
Meta::List, parsing its tokens as the type identifier. -/
theorem extract_some_of_find_some (attrs : List RAttr) (a : RAttr) (tok : TokenArg)
    (h : attrs.find? isReprList = some a) (hm : a.meta = .listMeta tok) :
    extract_repr_from_attrs attrs =
      (match parse2Ident tok with
       | some ty => .ok (some ty)
       | none => .error .MalformedArgument) := by
  induction attrs with
  | nil => exact absurd h (by simp)
  | cons b rest ih =>
    by_cases hp : isReprList b = true
    · rw [List.find?_cons_of_pos _ hp] at h
      have hb : b = a := by simpa using h
      subst hb
      have hpr : b.path = "repr" := by
        simp only [isReprList, Bool.and_eq_true, beq_iff_eq] at hp
        exact hp.1
      simp [extract_repr_from_attrs, hpr, hm]
    · rw [List.find?_cons_of_neg _ hp] at h
      have hstep : extract_repr_from_attrs (b :: rest) = extract_repr_from_attrs rest := by
        by_cases hpr : b.path = "repr"
        · cases hbm : b.meta with
          | listMeta t =>
            exact absurd (by simp [isReprList, hpr, hbm, RMeta.isList]) hp
          | pathMeta => simp [extract_repr_from_attrs, hpr, hbm]
          | nameValueMeta => simp [extract_repr_from_attrs, hpr, hbm]
        · simp [extract_repr_from_attrs, hpr]
      rw [hstep]
      exact ih h

/-- C9: missing representation type.  With empty argument tokens and no
existing repr annotation with list arguments on the declaration, the
extractor fails with the advisory MissingRepresentationType diagnostic;
when such an annotation is present, the type identifier is extracted
from the first one in declaration order. -/
theorem missing_representation_type (input : DeriveInput) :
    (input.attrs.find? isReprList = none →
      resolve_repr_type none input = .error .MissingRepresentationType)
    ∧ (∀ a tok ty, input.attrs.find? isReprList = some a → a.meta = .listMeta tok →
        parse2Ident tok = some ty → resolve_repr_type none input = .ok ty) := by
  constructor
  · intro h
    simp [resolve_repr_type, extract_none_of_find_none _ h]
  · intro a tok ty hf hm hp
    simp [resolve_repr_type, extract_some_of_find_some _ a tok hf hm, hp]

/-- A declaration with no repr annotation at all. -/
def noReprInput : DeriveInput :=
  { ident := "Test", vis := ""
  , attrs := [ { path := "derive", meta := .listMeta (.otherTok "Debug") } ]
  , data := .enumData [ { name := "A", attrs := [], discriminant := none
                        , fields := .unit } ] }

/-- A declaration with two repr annotations; the first carries u32. -/
def withReprInput : DeriveInput :=
  { ident := "Test", vis := ""
  , attrs := [ { path := "derive", meta := .listMeta (.otherTok "Debug") }
             , { path := "repr", meta := .listMeta (.identTok "u32") }
             , { path := "repr", meta := .listMeta (.identTok "u8") } ]
  , data := .enumData [ { name := "A", attrs := [], discriminant := none
                        , fields := .unit } ] }

/-- Witness for C9: no repr annotation gives the advisory diagnostic;
with two repr annotations the first one's type u32 is extracted. -/
theorem missing_representation_type_witness :
    resolve_repr_type none noReprInput = .error .MissingRepresentationType ∧
      resolve_repr_type none withReprInput = .ok "u32" :=
  ⟨(missing_representation_type noReprInput).1 rfl,
    (missing_representation_type withReprInput).2
      { path := "repr", meta := .listMeta (.identTok "u32") }
      (.identTok "u32") "u32" rfl rfl rfl⟩

/-- C6: the conversion error type.  Its name is built deterministically
from the enum's name by appending ConversionError (distinct enums named
differently get distinct error types); its derive list grants equality,
hash and copy semantics; its Display message is exactly
`unknown <EnumName> variant: <value>`; and the generated TryFrom
constructs it holding exactly the rejected integer. -/
theorem conversion_error_type_shape :
    errorTypeName "Status" = "StatusConversionError"
    ∧ (errorTypeName "Priority" == errorTypeName "Status") = false
    ∧ (∀ e : String, errorTypeName e = e ++ "ConversionError")
    ∧ ("PartialEq" ∈ errorTypeDerives ∧ "Eq" ∈ errorTypeDerives
        ∧ "Hash" ∈ errorTypeDerives ∧ "Copy" ∈ errorTypeDerives
        ∧ "Clone" ∈ errorTypeDerives)
    ∧ (∀ (e : String) (v : Int),
        conversionErrorMessage e v = "unknown " ++ e ++ " variant: " ++ toString v)
    ∧ conversionErrorMessage "Status" 3 = "unknown Status variant: 3"
    ∧ gen_try_from statusRe 3 = .error { value := 3 } :=
  ⟨by decide, by decide, fun e => rfl, by decide, fun e v => rfl, by decide, rfl⟩

/-- The intermediate model of the Mixed scenario with representation
u16. -/
def mixedRe : ReprEnum :=
  { name := "Mixed", repr_type := "u16", visibility := "", attributes := []
  , variants := calculate_discriminants mixedVariants }

/-- C10: the two coexisting implementations disagree.  For
`enum Mixed { First, Second = 10, Third }` the host assigns
discriminants 0, 10, 11, so the pipeline's generated from_repr (which
compares against the host cast) maps 11 to Some Third; the inline lib.rs
implementation records match tokens 0, 10, 0 (its counter resets to 0
after every explicit discriminant), so its generated from_repr maps 11
to None.  The repo's own tests expect the pipeline behaviour, so the
inline implementation contradicts them. -/
theorem dual_implementations_divergence :
    hostDiscs mixedDiscs = [0, 10, 11]
    ∧ gen_from_repr mixedRe 11 = some 2
    ∧ libDiscTokens mixedDiscs = [.litTok 0, .exprTok (.lit 10), .litTok 0]
    ∧ lib_from_repr (libDiscTokens mixedDiscs) 11 = none :=
  ⟨by decide, by decide, by decide, by decide⟩

end ReprCast
